import Mathlib

/-!
Shallow embedding of the SQL compilation core of immudb's `pkg/sql`
package (`stmt.go`), together with models of the engine helpers the
statements call into (key codec, catalog constructors), and proofs of
properties of statement compilation and query resolution.

Go byte slices are modelled as `List Nat` (each entry a byte value),
Go maps as association lists iterated in insertion order, nil pointers
as `Option`, and fallible functions return `Except Err`.  A Go runtime
panic (nil-map dereference, out-of-range index) is modelled by the
distinguished error `Err.runtimePanic`; no statement reached by a
theorem below takes such a path.
-/

set_option maxRecDepth 16384

namespace ImmuSql

/-- SQL value types (`SQLValueType` in `stmt.go`). -/
abbrev SQLValueType := String

def IntegerType : SQLValueType := "INTEGER"

def BooleanType : SQLValueType := "BOOLEAN"

def StringType : SQLValueType := "STRING"

def BLOBType : SQLValueType := "BLOB"

def TimestampType : SQLValueType := "TIMESTAMP"

/-- Aggregate functions (`AggregateFn` constants). -/
inductive AggregateFn
  | COUNT | SUM | MAX | MIN | AVG
deriving DecidableEq, Repr

/-- Comparison operators of boolean expressions (`CmpOperator` constants). -/
inductive CmpOperator
  | EQ | NE | LT | LE | GT | GE
deriving DecidableEq, Repr

/-- Logical connectives (`LogicOperator` constants). -/
inductive LogicOperator
  | AND | OR
deriving DecidableEq, Repr

/-- Join kinds (`JoinType` constants). -/
inductive JoinType
  | InnerJoin | LeftJoin | RightJoin
deriving DecidableEq, Repr

/-- Scan comparison mode (`Comparison` constants in `stmt.go`). -/
inductive Comparison
  | EqualTo | LowerThan | LowerOrEqualTo | GreaterThan | GreaterOrEqualTo
deriving DecidableEq, Repr

/-- The error taxonomy of the engine (`ErrIllegalArguments`, ... sentinel
errors).  `runtimePanic` stands for a Go runtime panic (nil dereference or
out-of-range index), which is not a catchable engine error. -/
inductive Err
  | illegalArguments
  | noDatabaseSelected
  | databaseDoesNotExist
  | databaseAlreadyExists
  | tableDoesNotExist
  | tableAlreadyExists
  | columnDoesNotExist
  | duplicatedColumn
  | invalidColumn
  | columnNotIndexed
  | indexAlreadyExists
  | pkCanNotBeNull
  | invalidPK
  | invalidNumberOfValues
  | jointColumnNotFound
  | invalidJointColumn
  | limitedOrderBy
  | notYetSupported
  | invalidValue
  | runtimePanic
deriving DecidableEq, Repr

/-- A key-value entry handed to the store (`store.KV`).  A nil Go slice is
the empty list. -/
structure KV where
  key : List Nat
  value : List Nat
deriving DecidableEq, Repr

/-- Key-space name `catalogDatabasePrefix` of `stmt.go`. -/
def catalogDatabasePfx : String := "CATALOG.DATABASE."

/-- Key-space name `catalogTablePrefix` of `stmt.go`. -/
def catalogTablePfx : String := "CATALOG.TABLE."

/-- Key-space name `catalogColumnPrefix` of `stmt.go`. -/
def catalogColumnPfx : String := "CATALOG.COLUMN."

/-- Key-space name `catalogIndexPrefix` of `stmt.go`. -/
def catalogIndexPfx : String := "CATALOG.INDEX."

/-- Key-space name `rowPrefix` of `stmt.go`. -/
def rowPfx : String := "ROW."

/-- Big-endian 4-byte encoding of a 32-bit number (as `binary.BigEndian.PutUint32`). -/
def u32BE (n : Nat) : List Nat :=
  [n / 2 ^ 24 % 256, n / 2 ^ 16 % 256, n / 2 ^ 8 % 256, n % 256]

/-- Big-endian 8-byte encoding of a 64-bit number. -/
def u64BE (n : Nat) : List Nat :=
  [n / 2 ^ 56 % 256, n / 2 ^ 48 % 256, n / 2 ^ 40 % 256, n / 2 ^ 32 % 256,
   n / 2 ^ 24 % 256, n / 2 ^ 16 % 256, n / 2 ^ 8 % 256, n % 256]

/-- The bytes of a string (one byte per character in this model). -/
def strBytes (s : String) : List Nat := s.data.map Char.toNat

/-- Modelled from the spec: `encodeID` from the engine (not under `src/`);
ids are encoded as 8-byte big-endian unsigned integers. -/
def encodeID (id : Nat) : List Nat := u64BE id

/-- A column of a table (`Column` in the catalog).  The cyclic
back-reference `col.table` of the Go struct is flattened into the owning
table's and database's names, which is all `jointColumnTo` reads. -/
structure Column where
  id : Nat
  colName : String
  colType : SQLValueType
  tableName : String
  dbName : String
deriving DecidableEq, Repr

/-- A column specification of a CREATE TABLE statement (`ColSpec`). -/
structure ColSpec where
  colName : String
  colType : SQLValueType
deriving DecidableEq, Repr

/-- A table of the catalog (`Table`).  `cols` is the `colsByID` map in id
order; `indexes` is the set of secondary-indexed column ids in insertion
order. -/
structure Table where
  dbId : Nat
  dbName : String
  id : Nat
  name : String
  cols : List Column
  pk : Column
  indexes : List Nat
deriving DecidableEq, Repr

/-- Lookup in the `colsByName` map. -/
def Table.colByName (t : Table) (name : String) : Option Column :=
  t.cols.find? (fun c => c.colName = name)

/-- Lookup in the `colsByID` map. -/
def Table.colByID (t : Table) (id : Nat) : Option Column :=
  t.cols.find? (fun c => c.id = id)

/-- A database of the catalog (`Database`). -/
structure Database where
  id : Nat
  name : String
  tables : List Table
deriving DecidableEq, Repr

/-- Lookup in the `tablesByName` map. -/
def Database.tableByName (db : Database) (name : String) : Option Table :=
  db.tables.find? (fun t => t.name = name)

/-- The in-memory catalog (`catalog`), a list of databases in id order. -/
structure Catalog where
  dbs : List Database
deriving DecidableEq, Repr

/-- Lookup in the `dbsByName` map. -/
def Catalog.dbByName (c : Catalog) (name : String) : Option Database :=
  c.dbs.find? (fun d => d.name = name)

/-- `catalog.ExistDatabase`. -/
def Catalog.ExistDatabase (c : Catalog) (name : String) : Bool :=
  (c.dbByName name).isSome

/-- Modelled from the spec: `catalog.newDatabase` (engine code not under
`src/`); fails with `DatabaseAlreadyExists`, otherwise allocates the next
dense id starting from 1 and registers the database. -/
def Catalog.newDatabase (c : Catalog) (name : String) :
    Except Err (Database × Catalog) :=
  if c.ExistDatabase name then
    .error .databaseAlreadyExists
  else
    let db : Database := ⟨c.dbs.length + 1, name, []⟩
    .ok (db, ⟨c.dbs ++ [db]⟩)

/-- Boolean duplicate test on a list of names. -/
def hasDupName : List String → Bool
  | [] => false
  | n :: rest => rest.contains n || hasDupName rest

/-- Modelled from the spec: `Database.newTable` (engine code not under
`src/`); fails with `TableAlreadyExists`, `DuplicatedColumn` (a repeated
column name) or `InvalidPK` (the primary key is not among the columns);
otherwise allocates the next dense table id and dense column ids from 1 in
declaration order. -/
def Database.newTable (db : Database) (name : String) (colsSpec : List ColSpec)
    (pk : String) : Except Err (Table × Database) :=
  if (db.tableByName name).isSome then
    .error .tableAlreadyExists
  else if hasDupName (colsSpec.map (fun cs => cs.colName)) then
    .error .duplicatedColumn
  else
    let cols : List Column := colsSpec.enum.map
      (fun p => ⟨p.1 + 1, p.2.colName, p.2.colType, name, db.name⟩)
    match cols.find? (fun c => c.colName = pk) with
    | none => .error .invalidPK
    | some pkCol =>
      let t : Table := ⟨db.id, db.name, db.tables.length + 1, name, cols, pkCol, []⟩
      .ok (t, ⟨db.id, db.name, db.tables ++ [t]⟩)

/-- The engine state visible to compilation: the catalog and the implicit
database name (`Engine.catalog`, `Engine.implicitDatabase`). -/
structure Engine where
  catalog : Catalog
  implicitDatabase : String
deriving DecidableEq, Repr

/-- Modelled from the spec: `Engine.mapKey` (engine code not under `src/`);
concatenates the key-space name and the id/value chunks, uniformly for all
keys. -/
def Engine.mapKey (_e : Engine) (p : String) (chunks : List (List Nat)) :
    List Nat :=
  strBytes p ++ chunks.flatten

/-- Replace a database of the catalog (models in-place mutation through
the `*Database` pointer). -/
def Catalog.setDb (c : Catalog) (db : Database) : Catalog :=
  ⟨c.dbs.map (fun d => if d.name = db.name then db else d)⟩

/-- Replace a table of a database of the catalog (models in-place mutation
through the `*Table` pointer). -/
def Catalog.setTable (c : Catalog) (dbName : String) (t : Table) : Catalog :=
  ⟨c.dbs.map (fun d =>
    if d.name = dbName then ⟨d.id, d.name, d.tables.map (fun t0 => if t0.name = t.name then t else t0)⟩
    else d)⟩

/-- Typed values of the statement tree (`Number`, `String`, `Bool`, `Blob`,
`SysFn`, `Param` in `stmt.go`). -/
inductive Value
  | num (v : Nat)
  | str (s : String)
  | bool (b : Bool)
  | blob (bs : List Nat)
  | sysFn (fn : String)
  | param (id : String)
deriving DecidableEq, Repr

/-- Modelled from the spec: the `asKey` constant of the engine (not under
`src/`); assumed to be the boolean literal `true`. -/
def asKey : Bool := true

/-- Modelled from the spec: `encodeValue(value, type, asKey)` from the
engine (not under `src/`); INTEGER and TIMESTAMP values are 8 bytes
big-endian, BOOLEAN one byte, STRING and BLOB a 4-byte big-endian length
followed by the raw bytes; it enforces type compatibility and refuses to
encode a `SysFn` or an unbound `Param`. -/
def encodeValue (v : Value) (t : SQLValueType) (_asKey : Bool) :
    Except Err (List Nat) :=
  match v with
  | .num n =>
    if t = IntegerType ∨ t = TimestampType then .ok (u64BE n)
    else .error .invalidValue
  | .bool b =>
    if t = BooleanType then .ok [if b then 1 else 0]
    else .error .invalidValue
  | .str s =>
    if t = StringType then .ok (u32BE (strBytes s).length ++ strBytes s)
    else .error .invalidValue
  | .blob bs =>
    if t = BLOBType then .ok (u32BE bs.length ++ bs)
    else .error .invalidValue
  | .sysFn _ => .error .invalidValue
  | .param _ => .error .invalidValue

/-- Modelled from the spec: `maxKeyVal(type)` from the engine (not under
`src/`); the greatest possible key encoding of the type, of a fixed
implementation-defined length (8 bytes for INTEGER/TIMESTAMP, 1 for
BOOLEAN, 4 + 256 for STRING/BLOB). -/
def maxKeyVal (t : SQLValueType) : List Nat :=
  if t = BooleanType then [255]
  else if t = StringType ∨ t = BLOBType then List.replicate 260 255
  else List.replicate 8 255

/-- A row of an UPSERT statement (`RowSpec`). -/
structure RowSpec where
  values : List Value
deriving DecidableEq, Repr

/-- List indexing returning `none` out of range (a Go panic site). -/
def listIdx {α : Type} : List α → Nat → Option α
  | [], _ => none
  | x :: _, 0 => some x
  | _ :: xs, n + 1 => listIdx xs n

/-- The per-column loop of `RowSpec.Bytes`: for the i-th value, the i-th
listed column is looked up by name and the value is written tagged with
the column name (`{u32 nameLen}{name}{valueBytes}`). -/
def rowSpecBytesLoop (t : Table) (cols : List String) :
    List Value → Nat → Except Err (List Nat)
  | [], _ => .ok []
  | val :: rest, i =>
    match listIdx cols i with
    | none => .error .runtimePanic
    | some cname =>
      match t.colByName cname with
      | none => .error .runtimePanic
      | some col =>
        let b := u32BE (strBytes col.colName).length ++ strBytes col.colName
        match encodeValue val col.colType (!asKey) with
        | .error err => .error err
        | .ok valb =>
          match rowSpecBytesLoop t cols rest (i + 1) with
          | .error err => .error err
          | .ok tail => .ok (b ++ valb ++ tail)

/-- `RowSpec.Bytes`: the self-describing row payload, `u32 nCols` followed
by the name-tagged encodings of the values. -/
def RowSpec.bytes (r : RowSpec) (t : Table) (cols : List String) :
    Except Err (List Nat) :=
  match rowSpecBytesLoop t cols r.values 0 with
  | .error err => .error err
  | .ok body => .ok (u32BE cols.length ++ body)

/-- A table reference of a query (`TableRef`). -/
structure TableRef where
  db : String
  table : String
  asName : String
deriving DecidableEq, Repr

/-- A column selector (`ColSelector`). -/
structure ColSelector where
  db : String
  table : String
  col : String
  asName : String
deriving DecidableEq, Repr

/-- An ordering column of a SELECT or a resolve call (`OrdCol`).  The Go
field `sel` is a possibly-nil pointer. -/
structure OrdCol where
  sel : Option ColSelector
  cmp : Comparison
  initKeyVal : List Nat
  useInitKeyVal : Bool
deriving DecidableEq, Repr

/-- A selection item (`Selector` implementations: `ColSelector`,
`AggSelector`, `AggColSelector`). -/
inductive Selector
  | colSel (s : ColSelector)
  | aggSel (aggFn : AggregateFn) (asName : String)
  | aggColSel (aggFn : AggregateFn) (db table col asName : String)
deriving DecidableEq, Repr

mutual

/-- Boolean expressions (`BoolExp` implementations in `stmt.go`).  The
value variants also implement the interface, hence the `val` case. -/
inductive BoolExp
  | val (v : Value)
  | colSelExp (s : ColSelector)
  | notExp (e : BoolExp)
  | likeExp (col : ColSelector) (pattern : String)
  | cmpExp (op : CmpOperator) (left right : BoolExp)
  | binExp (op : LogicOperator) (left right : BoolExp)
  | existsExp (q : SelectStmt)

/-- A data source of a query (`DataSource` implementations: `TableRef`
and `SelectStmt`). -/
inductive DataSource
  | table (tr : TableRef)
  | select (s : SelectStmt)

/-- A join specification (`JoinSpec`); `cond` is a possibly-nil pointer. -/
inductive JoinSpec
  | mk (joinType : JoinType) (ds : DataSource) (cond : Option BoolExp)

/-- A SELECT statement (`SelectStmt`). -/
inductive SelectStmt
  | mk (distinct : Bool) (selectors : List Selector) (ds : DataSource)
       (joins : List JoinSpec) (whereExp : Option BoolExp)
       (groupBy : List ColSelector) (having : Option BoolExp)
       (limit : Nat) (orderBy : List OrdCol) (asName : String)

/-- The statement variants (`SQLStmt` implementations). -/
inductive SQLStmt
  | tx (stmts : List SQLStmt)
  | createDatabase (db : String)
  | useDatabase (db : String)
  | useSnapshot (since upTo : String)
  | createTable (table : String) (colsSpec : List ColSpec) (pk : String)
  | createIndex (table col : String)
  | addColumn (table : String) (colSpec : ColSpec)
  | upsertInto (tableRef : TableRef) (cols : List String) (rows : List RowSpec)
  | selectStmt (s : SelectStmt)

end

/-- The `ds` field of a SELECT. -/
def SelectStmt.ds : SelectStmt → DataSource
  | .mk _ _ ds _ _ _ _ _ _ _ => ds

/-- The `joins` field of a SELECT. -/
def SelectStmt.joins : SelectStmt → List JoinSpec
  | .mk _ _ _ joins _ _ _ _ _ _ => joins

/-- The `orderBy` field of a SELECT. -/
def SelectStmt.orderBy : SelectStmt → List OrdCol
  | .mk _ _ _ _ _ _ _ _ orderBy _ => orderBy

/-- A store snapshot, opaque to compilation (`store.Snapshot`). -/
inductive Snapshot
  | mk
deriving DecidableEq, Repr

/-- The state of a raw row reader: the table scanned, the index column,
the scan direction and the start key. -/
structure RawRowReader where
  tableName : String
  colName : String
  cmp : Comparison
  initKeyVal : List Nat
deriving DecidableEq, Repr

/-- A row-reader pipeline (`RowReader` implementations): a raw scan,
possibly wrapped by a joint reader. -/
inductive RowReader
  | raw (r : RawRowReader)
  | joint (base : RowReader) (joins : List JoinSpec)

/-- Modelled from the spec: `Engine.newRawRowReader` (engine code not
under `src/`); returns a raw row reader that walks the chosen index of
the table starting at `initKeyVal`. -/
def Engine.newRawRowReader (_e : Engine) (_snap : Snapshot) (table : Table)
    (colName : String) (cmp : Comparison) (initKeyVal : List Nat) :
    Except Err RowReader :=
  .ok (.raw ⟨table.name, colName, cmp, initKeyVal⟩)

/-- Modelled from the spec: `Engine.newJointRowReader` (engine code not
under `src/`); wraps a row reader with the join stages. -/
def Engine.newJointRowReader (_e : Engine) (_snap : Snapshot)
    (rowReader : RowReader) (joins : List JoinSpec) : Except Err RowReader :=
  .ok (.joint rowReader joins)

/-- `TableRef.referencedTable`.  The translation keeps the source's dead
`var db string` guard: `db` is the empty string when the first branch is
tested, so the `stmt.db` lookup can never run. -/
def TableRef.referencedTable (stmt : TableRef) (e? : Option Engine) :
    Except Err Table :=
  match e? with
  | none => .error .illegalArguments
  | some e =>
    let db := ""
    let step1 : Except Err String :=
      if db ≠ "" then
        if !(e.catalog.ExistDatabase stmt.db) then .error .databaseDoesNotExist
        else .ok stmt.db
      else .ok db
    match step1 with
    | .error err => .error err
    | .ok db =>
      let step2 : Except Err String :=
        if db = "" then
          if e.implicitDatabase = "" then .error .noDatabaseSelected
          else .ok e.implicitDatabase
        else .ok db
      match step2 with
      | .error err => .error err
      | .ok db =>
        match e.catalog.dbByName db with
        | none => .error .runtimePanic
        | some d =>
          match d.tableByName stmt.table with
          | none => .error .tableDoesNotExist
          | some t => .ok t

/-- `TableRef.Resolve`.  The translation keeps the source's length check
against the local `initKeyVal`, which is still empty at that point, rather
than against the caller-supplied `ordCol.initKeyVal`. -/
def TableRef.Resolve (stmt : TableRef) (e? : Option Engine)
    (snap? : Option Snapshot) (ordCol : Option OrdCol) :
    Except Err RowReader :=
  match e?, snap? with
  | none, _ => .error .illegalArguments
  | some _, none => .error .illegalArguments
  | some e, some snap =>
    match ordCol with
    | none =>
      match stmt.referencedTable (some e) with
      | .error err => .error err
      | .ok table =>
        e.newRawRowReader snap table table.pk.colName .GreaterOrEqualTo []
    | some oc =>
      match oc.sel with
      | none => .error .illegalArguments
      | some sel =>
        match stmt.referencedTable (some e) with
        | .error err => .error err
        | .ok table =>
          if sel.db ≠ "" ∧ sel.db ≠ table.dbName then .error .invalidColumn
          else if sel.table ≠ "" ∧ sel.table ≠ table.name then .error .invalidColumn
          else
            match table.colByName sel.col with
            | none => .error .columnDoesNotExist
            | some col =>
              if table.pk.colName ≠ sel.col ∧ ¬ table.indexes.contains col.id then
                .error .columnNotIndexed
              else
                let colName := col.colName
                let cmp := oc.cmp
                let initKeyVal : List Nat := []
                if oc.useInitKeyVal then
                  if initKeyVal.length > (maxKeyVal col.colType).length then
                    .error .illegalArguments
                  else e.newRawRowReader snap table colName cmp oc.initKeyVal
                else if cmp = .LowerThan ∨ cmp = .LowerOrEqualTo then
                  e.newRawRowReader snap table colName cmp (maxKeyVal col.colType)
                else
                  e.newRawRowReader snap table colName cmp initKeyVal

/-- `ColSelector.jointColumnTo`: matches the target column by optional
database, optional table and mandatory column name. -/
def ColSelector.jointColumnTo (bexp : ColSelector) (col : Column) :
    Except Err ColSelector :=
  if bexp.db ≠ "" ∧ bexp.db ≠ col.dbName then .error .jointColumnNotFound
  else if bexp.table ≠ "" ∧ bexp.table ≠ col.tableName then .error .jointColumnNotFound
  else if bexp.col ≠ col.colName then .error .jointColumnNotFound
  else .ok bexp

/-- The error/result combination of `CmpBoolExp.jointColumnTo` after both
sides were matched against the target column. -/
def cmpCombine (selLeft selRight : ColSelector) :
    Except Err ColSelector → Except Err ColSelector → Except Err ColSelector
  | .error errLeft, resRight =>
    if errLeft ≠ .jointColumnNotFound then .error errLeft
    else
      match resRight with
      | .error errRight =>
        if errRight ≠ .jointColumnNotFound then .error errRight
        else .ok selLeft
      | .ok _ => .ok selLeft
  | .ok _, .error errRight =>
    if errRight ≠ .jointColumnNotFound then .error errRight
    else .ok selRight
  | .ok _, .ok _ => .error .invalidJointColumn

/-- The error/result combination of `BinBoolExp.jointColumnTo` after both
evaluations (the source evaluates `bexp.left` both times). -/
def binCombine :
    Except Err ColSelector → Except Err ColSelector → Except Err ColSelector
  | .error errLeft, resRight =>
    if errLeft ≠ .jointColumnNotFound then .error errLeft
    else
      match resRight with
      | .error errRight =>
        if errRight ≠ .jointColumnNotFound then .error errRight
        else .error .jointColumnNotFound
      | .ok jcolRight => .ok jcolRight
  | .ok jcolLeft, .error errRight =>
    if errRight ≠ .jointColumnNotFound then .error errRight
    else .ok jcolLeft
  | .ok jcolLeft, .ok jcolRight =>
    if jcolLeft ≠ jcolRight then .error .invalidJointColumn
    else .ok jcolLeft

/-- `jointColumnTo` dispatch over all `BoolExp` implementations.  Value
nodes, LIKE and EXISTS return `JointColumnNotFound`; NOT recurses;
`CmpBoolExp` requires `EQ` over two `ColSelector`s; `BinBoolExp` combines
the two evaluations — the source evaluates `bexp.left` for both sides. -/
def BoolExp.jointColumnTo (col : Column) : BoolExp → Except Err ColSelector
  | .val _ => .error .jointColumnNotFound
  | .colSelExp s => s.jointColumnTo col
  | .notExp e => BoolExp.jointColumnTo col e
  | .likeExp _ _ => .error .jointColumnNotFound
  | .existsExp _ => .error .jointColumnNotFound
  | .cmpExp op left right =>
    if op ≠ .EQ then .error .jointColumnNotFound
    else
      match left, right with
      | .colSelExp selLeft, .colSelExp selRight =>
        cmpCombine selLeft selRight (selLeft.jointColumnTo col)
          (selRight.jointColumnTo col)
      | _, _ => .error .jointColumnNotFound
  | .binExp _ left _right =>
    binCombine (BoolExp.jointColumnTo col left) (BoolExp.jointColumnTo col left)

/-- The column loop of `UpsertIntoStmt.Validate`: resolves each listed
name, tracks whether the primary key was seen, and rejects duplicated
column ids.  `sel` is the `selByColID` map as an association list. -/
def validateLoop (table : Table) :
    List String → Nat → Bool → List (Nat × Nat) → Except Err (List (Nat × Nat))
  | [], _, pkIncluded, sel =>
    if !pkIncluded then .error .pkCanNotBeNull else .ok sel
  | c :: rest, i, pkIncluded, sel =>
    match table.colByName c with
    | none => .error .invalidColumn
    | some col =>
      let pkIncluded := if table.pk.colName = c then true else pkIncluded
      if (List.lookup col.id sel).isSome then .error .duplicatedColumn
      else validateLoop table rest (i + 1) pkIncluded (sel ++ [(col.id, i)])

/-- `UpsertIntoStmt.Validate`: checks the listed columns against the table
and returns the map from column id to value position. -/
def upsertValidate (cols : List String) (table : Table) :
    Except Err (List (Nat × Nat)) :=
  validateLoop table cols 0 false []

/-- The secondary-index loop of `UpsertIntoStmt.CompileUsing`: one entry
per indexed column id, keyed by the encoded column value followed by the
encoded primary-key value, with empty value. -/
def indexEntries (e : Engine) (table : Table) (cs : List (Nat × Nat))
    (row : RowSpec) (pkEncVal : List Nat) : List Nat → Except Err (List KV)
  | [] => .ok []
  | colID :: rest =>
    match listIdx row.values ((List.lookup colID cs).getD 0) with
    | none => .error .runtimePanic
    | some cVal =>
      match table.colByID colID with
      | none => .error .runtimePanic
      | some c =>
        match encodeValue cVal c.colType asKey with
        | .error err => .error err
        | .ok encVal =>
          match indexEntries e table cs row pkEncVal rest with
          | .error err => .error err
          | .ok tail =>
            .ok (⟨e.mapKey rowPfx [encodeID table.dbId, encodeID table.id,
                    encodeID colID, encVal, pkEncVal], []⟩ :: tail)

/-- The row loop of `UpsertIntoStmt.CompileUsing`: per row, one primary
entry keyed by the encoded primary-key value and carrying the row payload,
followed by one entry per secondary-indexed column. -/
def upsertRows (e : Engine) (table : Table) (cs : List (Nat × Nat))
    (cols : List String) : List RowSpec → List KV → Except Err (List KV)
  | [], des => .ok des
  | row :: rest, des =>
    if row.values.length ≠ cols.length then .error .invalidNumberOfValues
    else
      match listIdx row.values ((List.lookup table.pk.id cs).getD 0) with
      | none => .error .runtimePanic
      | some pkVal =>
        match encodeValue pkVal table.pk.colType asKey with
        | .error err => .error err
        | .ok pkEncVal =>
          match row.bytes table cols with
          | .error err => .error err
          | .ok bs =>
            let pke : KV := ⟨e.mapKey rowPfx [encodeID table.dbId,
              encodeID table.id, encodeID table.pk.id, pkEncVal], bs⟩
            match indexEntries e table cs row pkEncVal table.indexes with
            | .error err => .error err
            | .ok ies => upsertRows e table cs cols rest (des ++ pke :: ies)

/-- `SelectStmt.CompileUsing`: enforces the `ORDER BY` restriction (at
most one column; the source a direct `TableRef`; the column the primary
key or secondary-indexed) and emits no entries. -/
def selectCompile (stmt : SelectStmt) (e? : Option Engine) :
    Except Err (List KV × List KV) :=
  match stmt.orderBy with
  | [] => .ok ([], [])
  | _ :: _ :: _ => .error .limitedOrderBy
  | [oc] =>
    match stmt.ds with
    | .select _ => .error .limitedOrderBy
    | .table tableRef =>
      match tableRef.referencedTable e? with
      | .error err => .error err
      | .ok table =>
        match oc.sel with
        | none => .error .runtimePanic
        | some sel =>
          match table.colByName sel.col with
          | none => .error .limitedOrderBy
          | some col =>
            if table.pk.id = col.id then .ok ([], [])
            else if table.indexes.contains col.id then .ok ([], [])
            else .error .limitedOrderBy

mutual

/-- `SQLStmt.CompileUsing` dispatch: turns a statement into its catalog
entries, its data entries, and the engine state after its side effects. -/
def compileUsing : SQLStmt → Engine → Except Err (List KV × List KV × Engine)
  | .tx stmts, e => compileTx stmts e [] []
  | .createDatabase name, e =>
    match e.catalog.newDatabase name with
    | .error err => .error err
    | .ok (db, cat) =>
      let kv : KV := ⟨e.mapKey catalogDatabasePfx [encodeID db.id], strBytes name⟩
      .ok ([kv], [], ⟨cat, e.implicitDatabase⟩)
  | .useDatabase name, e =>
    if !(e.catalog.ExistDatabase name) then .error .databaseDoesNotExist
    else .ok ([], [], ⟨e.catalog, name⟩)
  | .useSnapshot _ _, _ => .error .notYetSupported
  | .createTable tname colsSpec pk, e =>
    if e.implicitDatabase = "" then .error .noDatabaseSelected
    else
      match e.catalog.dbByName e.implicitDatabase with
      | none => .error .runtimePanic
      | some db =>
        match db.newTable tname colsSpec pk with
        | .error err => .error err
        | .ok (table, db') =>
          let colEntries : List KV := table.cols.map (fun col =>
            ⟨e.mapKey catalogColumnPfx [encodeID db.id, encodeID table.id,
               encodeID col.id, strBytes col.colType], []⟩)
          let te : KV := ⟨e.mapKey catalogTablePfx [encodeID db.id,
            encodeID table.id, encodeID table.pk.id], strBytes table.name⟩
          .ok (colEntries ++ [te], [], ⟨e.catalog.setDb db', e.implicitDatabase⟩)
  | .createIndex tname cname, e =>
    if e.implicitDatabase = "" then .error .noDatabaseSelected
    else
      match e.catalog.dbByName e.implicitDatabase with
      | none => .error .runtimePanic
      | some db =>
        match db.tableByName tname with
        | none => .error .tableDoesNotExist
        | some table =>
          if table.pk.colName = cname then .error .indexAlreadyExists
          else
            match table.colByName cname with
            | none => .error .columnDoesNotExist
            | some col =>
              if table.indexes.contains col.id then .error .indexAlreadyExists
              else
                let table' : Table := ⟨table.dbId, table.dbName, table.id,
                  table.name, table.cols, table.pk, table.indexes ++ [col.id]⟩
                let te : KV := ⟨e.mapKey catalogIndexPfx [encodeID table.dbId,
                  encodeID table.id, encodeID col.id], strBytes table.name⟩
                .ok ([te], [],
                  ⟨e.catalog.setTable e.implicitDatabase table', e.implicitDatabase⟩)
  | .addColumn _ _, _ => .error .notYetSupported
  | .upsertInto tableRef cols rows, e =>
    match tableRef.referencedTable (some e) with
    | .error err => .error err
    | .ok table =>
      match upsertValidate cols table with
      | .error err => .error err
      | .ok cs =>
        match upsertRows e table cs cols rows [] with
        | .error err => .error err
        | .ok des => .ok ([], des, e)
  | .selectStmt s, e =>
    match selectCompile s (some e) with
    | .error err => .error err
    | .ok (ces, des) => .ok (ces, des, e)

/-- The loop of `TxStmt.CompileUsing`.  The source accumulates the child
catalog entries onto `ces` but appends the child data entries `ds` onto
the local `ds` itself, so the accumulated `des` never changes. -/
def compileTx : List SQLStmt → Engine → List KV → List KV →
    Except Err (List KV × List KV × Engine)
  | [], e, ces, des => .ok (ces, des, e)
  | s :: rest, e, ces, des =>
    match compileUsing s e with
    | .error err => .error err
    | .ok (cs, ds, e') =>
      let _ds := ds ++ ds
      compileTx rest e' (ces ++ cs) des

end

mutual

/-- `SelectStmt.Resolve`: a nested SELECT source rejects any ordering
column, then compiles itself, resolves its data source with its own
`orderBy` head, and wraps joins when present. -/
def SelectStmt.Resolve : SelectStmt → Option Engine → Option Snapshot →
    Option OrdCol → Except Err RowReader
  | .mk dis sels ds joins w g hv lim orderBy a, e?, snap?, ordCol =>
    match ordCol with
    | some _ => .error .limitedOrderBy
    | none =>
      match selectCompile (.mk dis sels ds joins w g hv lim orderBy a) e? with
      | .error err => .error err
      | .ok _ =>
        match dsResolve ds e? snap? orderBy.head? with
        | .error err => .error err
        | .ok rowReader =>
          match joins with
          | [] => .ok rowReader
          | _ :: _ =>
            match e?, snap? with
            | some e, some snap => e.newJointRowReader snap rowReader joins
            | _, _ => .error .runtimePanic

/-- `DataSource.Resolve` dispatch. -/
def dsResolve : DataSource → Option Engine → Option Snapshot → Option OrdCol →
    Except Err RowReader
  | .table tr, e?, snap?, ordCol => tr.Resolve e? snap? ordCol
  | .select s, e?, snap?, ordCol => s.Resolve e? snap? ordCol

end

/-! Concrete catalog fixture: database `db1` with table `t` whose columns
are `id` (INTEGER, primary key), `name` (STRING, secondary-indexed) and
`age` (INTEGER, not indexed). -/

def exColId : Column := ⟨1, "id", IntegerType, "t", "db1"⟩

def exColName : Column := ⟨2, "name", StringType, "t", "db1"⟩

def exColAge : Column := ⟨3, "age", IntegerType, "t", "db1"⟩

def exTable : Table :=
  ⟨1, "db1", 1, "t", [exColId, exColName, exColAge], exColId, [2]⟩

def exDb : Database := ⟨1, "db1", [exTable]⟩

def exEngine : Engine := ⟨⟨[exDb]⟩, "db1"⟩

def exTR : TableRef := ⟨"", "t", ""⟩

def exRow1 : RowSpec := ⟨[.num 1, .str "a"]⟩

def exRow2 : RowSpec := ⟨[.num 2, .str "b"]⟩

def exUpsert : SQLStmt := .upsertInto exTR ["id", "name"] [exRow1]

/-- C1: the claim fails on the code — `TxStmt.CompileUsing` appends the
child data entries onto the shadowing local `ds` instead of the
accumulated `des`, so a transaction wrapping a single UPSERT that alone
produces two data entries returns an empty data-entry list. -/
theorem txCompile_drops_child_data_entries :
    (compileUsing (.tx [exUpsert]) exEngine).map (fun r => r.2.1) = .ok []
    ∧ (compileUsing exUpsert exEngine).map (fun r => r.2.1.length) = .ok 2 :=
  ⟨rfl, rfl⟩

/-- C3: the claim fails on the code — the `var db string` guard of
`TableRef.referencedTable` is dead, so a reference naming the nonexistent
database `nope` is silently resolved in the implicit database instead of
failing with `DatabaseDoesNotExist`. -/
theorem referencedTable_ignores_stmt_db :
    TableRef.referencedTable ⟨"nope", "t", ""⟩ (some exEngine) = .ok exTable
    ∧ exEngine.catalog.ExistDatabase "nope" = false :=
  ⟨rfl, rfl⟩

/-- C4: the claim fails on the code — `CreateTableStmt.CompileUsing`
emits every CATALOG.COLUMN entry with an empty stored value, not the
column name announced by the key-layout comment: creating `t2(id)` yields
catalog-entry values `[[], "t2"]` with no entry storing `"id"`. -/
theorem createTable_column_entry_value_empty :
    (compileUsing (.createTable "t2" [⟨"id", IntegerType⟩] "id") exEngine).map
      (fun r => r.1.map KV.value) = .ok [[], strBytes "t2"]
    ∧ strBytes "id" ≠ ([] : List Nat) :=
  ⟨rfl, by decide⟩

/-- C5: the claim fails on the code — `BinBoolExp.jointColumnTo` evaluates
`bexp.left` for both sides, so an AND whose right side alone references
the target column returns `JointColumnNotFound` instead of that side's
selector. -/
theorem binBoolExp_ignores_right_side :
    BoolExp.jointColumnTo exColName
        (.binExp .AND (.val (.num 1)) (.colSelExp ⟨"", "t", "name", ""⟩))
      = .error .jointColumnNotFound
    ∧ ColSelector.jointColumnTo ⟨"", "t", "name", ""⟩ exColName
      = .ok ⟨"", "t", "name", ""⟩ :=
  ⟨rfl, rfl⟩

/-- C8: the claim fails on the code — `TableRef.Resolve` compares the
still-empty local `initKeyVal` against `maxKeyVal`, so a caller-supplied
300-byte start key on a STRING column (whose `maxKeyVal` has 260 bytes)
is accepted as the scan start key instead of being rejected with
`IllegalArguments`. -/
theorem resolve_accepts_overlong_initKeyVal :
    TableRef.Resolve exTR (some exEngine) (some .mk)
        (some ⟨some ⟨"", "", "name", ""⟩, .GreaterOrEqualTo,
               List.replicate 300 7, true⟩)
      = .ok (.raw ⟨"t", "name", .GreaterOrEqualTo, List.replicate 300 7⟩)
    ∧ (maxKeyVal StringType).length < (List.replicate 300 7 : List Nat).length :=
  ⟨rfl, by decide⟩

/-! Ordering fixtures for the SELECT compilation claims. -/

def exOrdName : OrdCol := ⟨some ⟨"", "", "name", ""⟩, .GreaterOrEqualTo, [], false⟩

def exOrdAge : OrdCol := ⟨some ⟨"", "", "age", ""⟩, .GreaterOrEqualTo, [], false⟩

def exOrdZzz : OrdCol := ⟨some ⟨"", "", "zzz", ""⟩, .GreaterOrEqualTo, [], false⟩

def exSelBase : SelectStmt := .mk false [] (.table exTR) [] none [] none 0 [] ""

def exSelTwo : SelectStmt :=
  .mk false [] (.table exTR) [] none [] none 0 [exOrdName, exOrdName] ""

def exSelNested : SelectStmt :=
  .mk false [] (.select exSelBase) [] none [] none 0 [exOrdName] ""

def exSelZzz : SelectStmt := .mk false [] (.table exTR) [] none [] none 0 [exOrdZzz] ""

def exSelAge : SelectStmt := .mk false [] (.table exTR) [] none [] none 0 [exOrdAge] ""

def exSelName : SelectStmt := .mk false [] (.table exTR) [] none [] none 0 [exOrdName] ""

/-- C6: `SelectStmt.CompileUsing` fails with `LimitedOrderBy` when
`ORDER BY` names more than one column, when it is non-empty over a
non-`TableRef` source, when the named column does not exist, or when it is
neither the primary key nor secondary-indexed; a single ordering column
that is the primary key or secondary-indexed compiles without error. -/
theorem selectCompile_limitedOrderBy (s : SelectStmt) (e? : Option Engine) :
    (s.orderBy.length > 1 → selectCompile s e? = .error .limitedOrderBy)
    ∧ (∀ sub : SelectStmt, s.orderBy ≠ [] → s.ds = .select sub →
        selectCompile s e? = .error .limitedOrderBy)
    ∧ (∀ oc tr t sel, s.orderBy = [oc] → s.ds = .table tr →
        tr.referencedTable e? = .ok t → oc.sel = some sel →
        t.colByName sel.col = none →
        selectCompile s e? = .error .limitedOrderBy)
    ∧ (∀ oc tr t sel col, s.orderBy = [oc] → s.ds = .table tr →
        tr.referencedTable e? = .ok t → oc.sel = some sel →
        t.colByName sel.col = some col →
        t.pk.id ≠ col.id → t.indexes.contains col.id = false →
        selectCompile s e? = .error .limitedOrderBy)
    ∧ (∀ oc tr t sel col, s.orderBy = [oc] → s.ds = .table tr →
        tr.referencedTable e? = .ok t → oc.sel = some sel →
        t.colByName sel.col = some col →
        (t.pk.id = col.id ∨ t.indexes.contains col.id = true) →
        selectCompile s e? = .ok ([], [])) := by
  refine ⟨?_, ?_, ?_, ?_, ?_⟩
  · intro h
    rcases hob : s.orderBy with _ | ⟨a, _ | ⟨b, rest⟩⟩
    · rw [hob] at h; simp at h
    · rw [hob] at h; simp at h
    · simp [selectCompile, hob]
  · intro sub hne hds
    rcases hob : s.orderBy with _ | ⟨a, _ | ⟨b, rest⟩⟩
    · exact absurd hob hne
    · simp [selectCompile, hob, hds]
    · simp [selectCompile, hob]
  · intro oc tr t sel hob hds ht hsel hcol
    simp [selectCompile, hob, hds, ht, hsel, hcol]
  · intro oc tr t sel col hob hds ht hsel hcol hpk hidx
    have hmem : col.id ∉ t.indexes := by simpa using hidx
    simp [selectCompile, hob, hds, ht, hsel, hcol, hpk, hmem]
  · intro oc tr t sel col hob hds ht hsel hcol hok
    rcases hok with hpk | hidx
    · simp [selectCompile, hob, hds, ht, hsel, hcol, hpk]
    · have hmem : col.id ∈ t.indexes := by simpa using hidx
      by_cases hpk : t.pk.id = col.id
      · simp [selectCompile, hob, hds, ht, hsel, hcol, hpk]
      · simp [selectCompile, hob, hds, ht, hsel, hcol, hpk, hmem]

/-- Witness for C6: the five cases at concrete inputs over the fixture
table `t(id PK, name indexed, age)`. -/
theorem selectCompile_limitedOrderBy_witness :
    selectCompile exSelTwo (some exEngine) = .error .limitedOrderBy
    ∧ selectCompile exSelNested (some exEngine) = .error .limitedOrderBy
    ∧ selectCompile exSelZzz (some exEngine) = .error .limitedOrderBy
    ∧ selectCompile exSelAge (some exEngine) = .error .limitedOrderBy
    ∧ selectCompile exSelName (some exEngine) = .ok ([], []) :=
  ⟨(selectCompile_limitedOrderBy exSelTwo (some exEngine)).1 (by decide),
   (selectCompile_limitedOrderBy exSelNested (some exEngine)).2.1 exSelBase
     (by decide) rfl,
   (selectCompile_limitedOrderBy exSelZzz (some exEngine)).2.2.1 exOrdZzz exTR
     exTable ⟨"", "", "zzz", ""⟩ rfl rfl rfl rfl rfl,
   (selectCompile_limitedOrderBy exSelAge (some exEngine)).2.2.2.1 exOrdAge exTR
     exTable ⟨"", "", "age", ""⟩ exColAge rfl rfl rfl rfl rfl (by decide) rfl,
   (selectCompile_limitedOrderBy exSelName (some exEngine)).2.2.2.2 exOrdName exTR
     exTable ⟨"", "", "name", ""⟩ exColName rfl rfl rfl rfl rfl (Or.inr rfl)⟩

/-- C7: `CREATE INDEX t(c)` fails with `IndexAlreadyExists` when `c` is
the primary-key column, with `ColumnDoesNotExist` when `c` names no column
of `t`, and with `IndexAlreadyExists` when a secondary index on `c` already
exists; on success it appends `c`'s column id to the table's index set and
emits exactly one CATALOG.INDEX catalog entry. -/
theorem createIndex_cases (e : Engine) (db : Database) (table : Table)
    (tname cname : String)
    (hne : e.implicitDatabase ≠ "")
    (hdb : e.catalog.dbByName e.implicitDatabase = some db)
    (htb : db.tableByName tname = some table) :
    (table.pk.colName = cname →
      compileUsing (.createIndex tname cname) e = .error .indexAlreadyExists)
    ∧ (table.pk.colName ≠ cname → table.colByName cname = none →
      compileUsing (.createIndex tname cname) e = .error .columnDoesNotExist)
    ∧ (∀ col, table.pk.colName ≠ cname → table.colByName cname = some col →
      table.indexes.contains col.id = true →
      compileUsing (.createIndex tname cname) e = .error .indexAlreadyExists)
    ∧ (∀ col, table.pk.colName ≠ cname → table.colByName cname = some col →
      table.indexes.contains col.id = false →
      compileUsing (.createIndex tname cname) e = .ok
        ([⟨e.mapKey catalogIndexPfx [encodeID table.dbId, encodeID table.id,
            encodeID col.id], strBytes table.name⟩], [],
         ⟨e.catalog.setTable e.implicitDatabase
            ⟨table.dbId, table.dbName, table.id, table.name, table.cols,
             table.pk, table.indexes ++ [col.id]⟩, e.implicitDatabase⟩)) := by
  refine ⟨?_, ?_, ?_, ?_⟩
  · intro hpk
    simp [compileUsing, hne, hdb, htb, hpk]
  · intro hpk hcol
    simp [compileUsing, hne, hdb, htb, hpk, hcol]
  · intro col hpk hcol hidx
    have hmem : col.id ∈ table.indexes := by simpa using hidx
    simp [compileUsing, hne, hdb, htb, hpk, hcol, hmem]
  · intro col hpk hcol hidx
    have hmem : col.id ∉ table.indexes := by simpa using hidx
    simp [compileUsing, hne, hdb, htb, hpk, hcol, hmem]

/-- Witness for C7: the four cases at concrete inputs over the fixture
table `t(id PK, name indexed, age)`. -/
theorem createIndex_cases_witness :
    compileUsing (.createIndex "t" "id") exEngine = .error .indexAlreadyExists
    ∧ compileUsing (.createIndex "t" "zzz") exEngine = .error .columnDoesNotExist
    ∧ compileUsing (.createIndex "t" "name") exEngine = .error .indexAlreadyExists
    ∧ compileUsing (.createIndex "t" "age") exEngine = .ok
        ([⟨exEngine.mapKey catalogIndexPfx [encodeID exTable.dbId,
            encodeID exTable.id, encodeID exColAge.id], strBytes exTable.name⟩],
         [],
         ⟨exEngine.catalog.setTable exEngine.implicitDatabase
            ⟨exTable.dbId, exTable.dbName, exTable.id, exTable.name, exTable.cols,
             exTable.pk, exTable.indexes ++ [exColAge.id]⟩,
          exEngine.implicitDatabase⟩) :=
  ⟨(createIndex_cases exEngine exDb exTable "t" "id" (by decide) rfl rfl).1 rfl,
   (createIndex_cases exEngine exDb exTable "t" "zzz" (by decide) rfl rfl).2.1
     (by decide) rfl,
   (createIndex_cases exEngine exDb exTable "t" "name" (by decide) rfl rfl).2.2.1
     exColName (by decide) rfl rfl,
   (createIndex_cases exEngine exDb exTable "t" "age" (by decide) rfl rfl).2.2.2
     exColAge (by decide) rfl rfl⟩

/-- The column ids that a list of column names resolves to in a table. -/
def idsOf (t : Table) (cols : List String) : List Nat :=
  cols.filterMap (fun c => (t.colByName c).map Column.id)

lemma lookup_append_none {α β : Type} [BEq α] (a : α) (l₁ l₂ : List (α × β))
    (h : List.lookup a l₁ = none) :
    List.lookup a (l₁ ++ l₂) = List.lookup a l₂ := by
  induction l₁ with
  | nil => simp
  | cons p t ih =>
    obtain ⟨k, v⟩ := p
    cases hk : a == k with
    | true => simp [List.lookup, hk] at h
    | false =>
      simp only [List.cons_append, List.lookup, hk] at h ⊢
      exact ih h

lemma lookup_append_isSome {α β : Type} [BEq α] (a : α) (l₁ l₂ : List (α × β))
    (h : (List.lookup a l₁).isSome = true) :
    (List.lookup a (l₁ ++ l₂)).isSome = true := by
  induction l₁ with
  | nil => simp [List.lookup] at h
  | cons p t ih =>
    obtain ⟨k, v⟩ := p
    cases hk : a == k with
    | true => simp [List.cons_append, List.lookup, hk]
    | false =>
      simp only [List.lookup, hk] at h
      simp only [List.cons_append, List.lookup, hk]
      exact ih h

lemma lookup_singleton_ne {β : Type} (a k : Nat) (v : β) (h : a ≠ k) :
    List.lookup a [(k, v)] = none := by
  have hk : (a == k) = false := by simpa using h
  simp [List.lookup, hk]

lemma lookup_singleton_self {β : Type} (k : Nat) (v : β) :
    List.lookup k [(k, v)] = some v := by
  simp [List.lookup]

/-- Traversal of the validation loop over a clean prefix: every name of
`pre` resolves, the resolved ids are distinct and fresh for `sel`; the
loop then reaches the remainder with an extended map containing every id
of the prefix, and the primary-key flag stays `false` while the
primary-key column has not been listed. -/
lemma validateLoop_traverse (table : Table) (rest : List String) :
    ∀ (pre : List String) (i : Nat) (pkIn : Bool) (sel : List (Nat × Nat)),
      (∀ c ∈ pre, (table.colByName c).isSome = true) →
      (idsOf table pre).Nodup →
      (∀ id ∈ idsOf table pre, List.lookup id sel = none) →
      ∃ pkIn' sel',
        validateLoop table (pre ++ rest) i pkIn sel
          = validateLoop table rest (i + pre.length) pkIn' sel'
        ∧ (pkIn = false → table.pk.colName ∉ pre → pkIn' = false)
        ∧ (∀ id, id ∈ idsOf table pre → (List.lookup id sel').isSome = true)
        ∧ (∀ id, (List.lookup id sel).isSome = true →
            (List.lookup id sel').isSome = true) := by
  intro pre
  induction pre with
  | nil =>
    intro i pkIn sel _ _ _
    exact ⟨pkIn, sel, by simp, fun h _ => h, by simp [idsOf], fun _ h => h⟩
  | cons c pre' ih =>
    intro i pkIn sel hres hnodup hfresh
    obtain ⟨col, hcol⟩ := Option.isSome_iff_exists.mp
      (hres c (List.mem_cons_self c pre'))
    have hids : idsOf table (c :: pre') = col.id :: idsOf table pre' := by
      simp [idsOf, hcol]
    rw [hids] at hnodup hfresh
    have hnotin : col.id ∉ idsOf table pre' := (List.nodup_cons.mp hnodup).1
    have hnodup' : (idsOf table pre').Nodup := (List.nodup_cons.mp hnodup).2
    have hfhead : List.lookup col.id sel = none :=
      hfresh col.id (List.mem_cons_self _ _)
    have hstep :
        validateLoop table ((c :: pre') ++ rest) i pkIn sel
          = validateLoop table (pre' ++ rest) (i + 1)
              (if table.pk.colName = c then true else pkIn)
              (sel ++ [(col.id, i)]) := by
      simp [validateLoop, hcol, hfhead]
    have hfresh₂ : ∀ id ∈ idsOf table pre',
        List.lookup id (sel ++ [(col.id, i)]) = none := by
      intro id hid
      rw [lookup_append_none id sel _ (hfresh id (List.mem_cons_of_mem _ hid))]
      exact lookup_singleton_ne id col.id i (fun he => hnotin (he ▸ hid))
    obtain ⟨pkIn', sel', heq, hpk, hmem, hpres⟩ :=
      ih (i + 1) (if table.pk.colName = c then true else pkIn)
        (sel ++ [(col.id, i)])
        (fun c' hc' => hres c' (List.mem_cons_of_mem _ hc')) hnodup' hfresh₂
    refine ⟨pkIn', sel', ?_, ?_, ?_, ?_⟩
    · rw [hstep, heq]
      have : i + 1 + pre'.length = i + (c :: pre').length := by
        simp; omega
      rw [this]
    · intro h0 hnot
      have hc : table.pk.colName ≠ c := fun he => hnot (he ▸ List.mem_cons_self _ _)
      exact hpk (by simp [hc, h0]) (fun hm => hnot (List.mem_cons_of_mem _ hm))
    · intro id hid
      rw [hids] at hid
      rcases List.mem_cons.mp hid with he | hm
      · rw [he]
        apply hpres
        rw [lookup_append_none col.id sel _ hfhead]
        simp [lookup_singleton_self]
      · exact hmem id hm
    · intro id h
      exact hpres id (lookup_append_isSome id sel _ h)

lemma upsertRows_append (e : Engine) (t : Table) (cs : List (Nat × Nat))
    (cols : List String) :
    ∀ (pre l : List RowSpec) (acc des₀ : List KV),
      upsertRows e t cs cols pre acc = .ok des₀ →
      upsertRows e t cs cols (pre ++ l) acc = upsertRows e t cs cols l des₀ := by
  intro pre
  induction pre with
  | nil =>
    intro l acc des₀ h
    simp only [upsertRows] at h
    cases h
    simp
  | cons row pre' ih =>
    intro l acc des₀ h
    simp only [upsertRows] at h
    by_cases hlen : row.values.length ≠ cols.length
    · rw [if_pos hlen] at h; cases h
    · rw [if_neg hlen] at h
      rcases hidx : listIdx row.values ((List.lookup t.pk.id cs).getD 0)
        with _ | pkVal
      · simp only [hidx] at h; cases h
      · simp only [hidx] at h
        rcases henc : encodeValue pkVal t.pk.colType asKey with eerr | pkEnc
        · simp only [henc] at h; cases h
        · simp only [henc] at h
          rcases hb : row.bytes t cols with eerr | bs
          · simp only [hb] at h; cases h
          · simp only [hb] at h
            rcases hie : indexEntries e t cs row pkEnc t.indexes with eerr | ies
            · simp only [hie] at h; cases h
            · simp only [hie] at h
              have hstep : upsertRows e t cs cols (row :: (pre' ++ l)) acc
                  = upsertRows e t cs cols (pre' ++ l)
                      (acc ++ ⟨e.mapKey rowPfx [encodeID t.dbId, encodeID t.id,
                        encodeID t.pk.id, pkEnc], bs⟩ :: ies) := by
                simp [upsertRows, hlen, hidx, henc, hb, hie]
              rw [List.cons_append, hstep]
              exact ih l _ des₀ h

/-- C9: UPSERT validation fails with `PKCanNotBeNull` when the table's
primary-key column is not listed, with `DuplicatedColumn` when a column id
is listed twice, and with an error (`InvalidColumn`) when a listed name
matches no column; a row whose value count differs from the listed column
count makes compilation fail with `InvalidNumberOfValues`.  Each error is
also propagated by `UpsertIntoStmt.CompileUsing`. -/
theorem upsertValidate_errors (table : Table) :
    (∀ (tr : TableRef) (e : Engine) (rows : List RowSpec) (cols : List String),
      tr.referencedTable (some e) = .ok table →
      (∀ c ∈ cols, (table.colByName c).isSome = true) →
      (idsOf table cols).Nodup → table.pk.colName ∉ cols →
      upsertValidate cols table = .error .pkCanNotBeNull
      ∧ compileUsing (.upsertInto tr cols rows) e = .error .pkCanNotBeNull)
    ∧ (∀ (tr : TableRef) (e : Engine) (rows : List RowSpec) (pre : List String)
        (c : String) (rest : List String),
      tr.referencedTable (some e) = .ok table →
      (∀ c' ∈ pre, (table.colByName c').isSome = true) →
      (idsOf table pre).Nodup → table.colByName c = none →
      upsertValidate (pre ++ c :: rest) table = .error .invalidColumn
      ∧ compileUsing (.upsertInto tr (pre ++ c :: rest) rows) e
          = .error .invalidColumn)
    ∧ (∀ (tr : TableRef) (e : Engine) (rows : List RowSpec) (pre : List String)
        (c : String) (rest : List String) (col : Column),
      tr.referencedTable (some e) = .ok table →
      (∀ c' ∈ pre, (table.colByName c').isSome = true) →
      (idsOf table pre).Nodup → table.colByName c = some col →
      col.id ∈ idsOf table pre →
      upsertValidate (pre ++ c :: rest) table = .error .duplicatedColumn
      ∧ compileUsing (.upsertInto tr (pre ++ c :: rest) rows) e
          = .error .duplicatedColumn)
    ∧ (∀ (tr : TableRef) (e : Engine) (cols : List String)
        (cs : List (Nat × Nat)) (pre : List RowSpec) (r : RowSpec)
        (rest : List RowSpec) (des₀ : List KV),
      tr.referencedTable (some e) = .ok table →
      upsertValidate cols table = .ok cs →
      upsertRows e table cs cols pre [] = .ok des₀ →
      r.values.length ≠ cols.length →
      compileUsing (.upsertInto tr cols (pre ++ r :: rest)) e
        = .error .invalidNumberOfValues) := by
  refine ⟨?_, ?_, ?_, ?_⟩
  · intro tr e rows cols ht hres hnodup hnot
    obtain ⟨pkIn', sel', heq, hpk, _, _⟩ :=
      validateLoop_traverse table [] cols 0 false [] hres hnodup
        (fun _ _ => rfl)
    have h0 : pkIn' = false := hpk rfl hnot
    have hval : upsertValidate cols table = .error .pkCanNotBeNull := by
      unfold upsertValidate
      rw [← List.append_nil cols, heq, h0]
      simp [validateLoop]
    exact ⟨hval, by simp [compileUsing, ht, hval]⟩
  · intro tr e rows pre c rest ht hres hnodup hcol
    obtain ⟨pkIn', sel', heq, _, _, _⟩ :=
      validateLoop_traverse table (c :: rest) pre 0 false [] hres hnodup
        (fun _ _ => rfl)
    have hval : upsertValidate (pre ++ c :: rest) table
        = .error .invalidColumn := by
      unfold upsertValidate
      rw [heq]
      simp [validateLoop, hcol]
    exact ⟨hval, by simp [compileUsing, ht, hval]⟩
  · intro tr e rows pre c rest col ht hres hnodup hcol hin
    obtain ⟨pkIn', sel', heq, _, hmem, _⟩ :=
      validateLoop_traverse table (c :: rest) pre 0 false [] hres hnodup
        (fun _ _ => rfl)
    have hdup : (List.lookup col.id sel').isSome = true := hmem col.id hin
    have hval : upsertValidate (pre ++ c :: rest) table
        = .error .duplicatedColumn := by
      unfold upsertValidate
      rw [heq]
      simp [validateLoop, hcol, hdup]
    exact ⟨hval, by simp [compileUsing, ht, hval]⟩
  · intro tr e cols cs pre r rest des₀ ht hv hrows hlen
    have h1 := upsertRows_append e table cs cols pre (r :: rest) [] des₀ hrows
    simp only [compileUsing, ht, hv, h1]
    simp [upsertRows, hlen]

/-- The column-id/position map of the fixture UPSERT `t(id, name)`. -/
def exCs : List (Nat × Nat) := (upsertValidate ["id", "name"] exTable).toOption.getD []

/-- Witness for C9: the four failure modes at concrete inputs over the
fixture table `t(id PK, name indexed, age)`. -/
theorem upsertValidate_errors_witness :
    (upsertValidate ["name"] exTable = .error .pkCanNotBeNull
      ∧ compileUsing (.upsertInto exTR ["name"] [exRow1]) exEngine
          = .error .pkCanNotBeNull)
    ∧ (upsertValidate ["id", "zzz"] exTable = .error .invalidColumn
      ∧ compileUsing (.upsertInto exTR ["id", "zzz"] [exRow1]) exEngine
          = .error .invalidColumn)
    ∧ (upsertValidate ["id", "id"] exTable = .error .duplicatedColumn
      ∧ compileUsing (.upsertInto exTR ["id", "id"] [exRow1]) exEngine
          = .error .duplicatedColumn)
    ∧ compileUsing (.upsertInto exTR ["id", "name"] [⟨[.num 1]⟩]) exEngine
        = .error .invalidNumberOfValues :=
  ⟨(upsertValidate_errors exTable).1 exTR exEngine [exRow1] ["name"]
      rfl (by decide) (by decide) (by decide),
   (upsertValidate_errors exTable).2.1 exTR exEngine [exRow1] ["id"] "zzz" []
      rfl (by decide) (by decide) rfl,
   (upsertValidate_errors exTable).2.2.1 exTR exEngine [exRow1] ["id"] "id" []
      exColId rfl (by decide) (by decide) rfl (by decide),
   (upsertValidate_errors exTable).2.2.2 exTR exEngine ["id", "name"] exCs []
      ⟨[.num 1]⟩ [] [] rfl rfl rfl (by decide)⟩

/-- The data entries an UPSERT emits for one row: a primary entry keyed by
the encoded primary-key value of the row and carrying the row payload,
followed by one entry per secondary-indexed column with empty value whose
key ends with the same encoded primary-key value. -/
def UpsertRowShape (e : Engine) (t : Table) (cs : List (Nat × Nat))
    (cols : List String) (row : RowSpec) (group : List KV) : Prop :=
  ∃ pkVal pkEnc payload secondaries,
    listIdx row.values ((List.lookup t.pk.id cs).getD 0) = some pkVal
    ∧ encodeValue pkVal t.pk.colType asKey = .ok pkEnc
    ∧ row.bytes t cols = .ok payload
    ∧ group = ⟨e.mapKey rowPfx [encodeID t.dbId, encodeID t.id,
        encodeID t.pk.id, pkEnc], payload⟩ :: secondaries
    ∧ secondaries.length = t.indexes.length
    ∧ ∀ kv ∈ secondaries, kv.value = [] ∧ ∃ p, kv.key = p ++ pkEnc

lemma indexEntries_spec (e : Engine) (t : Table) (cs : List (Nat × Nat))
    (row : RowSpec) (pkEnc : List Nat) :
    ∀ (idxs : List Nat) (ies : List KV),
      indexEntries e t cs row pkEnc idxs = .ok ies →
      ies.length = idxs.length
      ∧ ∀ kv ∈ ies, kv.value = [] ∧ ∃ p, kv.key = p ++ pkEnc := by
  intro idxs
  induction idxs with
  | nil =>
    intro ies h
    simp only [indexEntries] at h
    cases h
    simp
  | cons colID rest ih =>
    intro ies h
    simp only [indexEntries] at h
    rcases hidx : listIdx row.values ((List.lookup colID cs).getD 0)
      with _ | cVal
    · simp only [hidx] at h; cases h
    · simp only [hidx] at h
      rcases hcid : t.colByID colID with _ | c
      · simp only [hcid] at h; cases h
      · simp only [hcid] at h
        rcases henc : encodeValue cVal c.colType asKey with eerr | encVal
        · simp only [henc] at h; cases h
        · simp only [henc] at h
          rcases hrest : indexEntries e t cs row pkEnc rest with eerr | tail
          · simp only [hrest] at h; cases h
          · simp only [hrest] at h
            cases h
            obtain ⟨hlen, hall⟩ := ih tail hrest
            refine ⟨by simp [hlen], ?_⟩
            intro kv hkv
            rcases List.mem_cons.mp hkv with he | hm
            · subst he
              refine ⟨rfl, strBytes rowPfx ++ encodeID t.dbId ++ encodeID t.id
                ++ encodeID colID ++ encVal, ?_⟩
              simp [Engine.mapKey, List.append_assoc]
            · exact hall kv hm

lemma upsertRows_spec (e : Engine) (t : Table) (cs : List (Nat × Nat))
    (cols : List String) :
    ∀ (rows : List RowSpec) (acc des : List KV),
      upsertRows e t cs cols rows acc = .ok des →
      ∃ groups, des = acc ++ groups.flatten
        ∧ List.Forall₂ (UpsertRowShape e t cs cols) rows groups := by
  intro rows
  induction rows with
  | nil =>
    intro acc des h
    simp only [upsertRows] at h
    cases h
    exact ⟨[], by simp, List.Forall₂.nil⟩
  | cons row rest ih =>
    intro acc des h
    simp only [upsertRows] at h
    by_cases hlen : row.values.length ≠ cols.length
    · rw [if_pos hlen] at h; cases h
    · rw [if_neg hlen] at h
      rcases hidx : listIdx row.values ((List.lookup t.pk.id cs).getD 0)
        with _ | pkVal
      · simp only [hidx] at h; cases h
      · simp only [hidx] at h
        rcases henc : encodeValue pkVal t.pk.colType asKey with eerr | pkEnc
        · simp only [henc] at h; cases h
        · simp only [henc] at h
          rcases hb : row.bytes t cols with eerr | bs
          · simp only [hb] at h; cases h
          · simp only [hb] at h
            rcases hie : indexEntries e t cs row pkEnc t.indexes with eerr | ies
            · simp only [hie] at h; cases h
            · simp only [hie] at h
              obtain ⟨groups, hdes, hall⟩ := ih _ des h
              obtain ⟨hlenie, hallie⟩ := indexEntries_spec e t cs row pkEnc
                t.indexes ies hie
              refine ⟨(⟨e.mapKey rowPfx [encodeID t.dbId, encodeID t.id,
                  encodeID t.pk.id, pkEnc], bs⟩ :: ies) :: groups, ?_, ?_⟩
              · rw [hdes]
                simp [List.append_assoc]
              · exact List.Forall₂.cons
                  ⟨pkVal, pkEnc, bs, ies, hidx, henc, hb, rfl, hlenie, hallie⟩
                  hall

lemma forall₂_shape_flatten_length (e : Engine) (t : Table)
    (cs : List (Nat × Nat)) (cols : List String) :
    ∀ (rows : List RowSpec) (groups : List (List KV)),
      List.Forall₂ (UpsertRowShape e t cs cols) rows groups →
      groups.flatten.length = rows.length * (1 + t.indexes.length) := by
  intro rows groups h
  induction h with
  | nil => simp
  | cons hshape _ ih =>
    obtain ⟨_, _, _, secondaries, _, _, _, hg, hslen, _⟩ := hshape
    subst hg
    simp only [List.flatten_cons, List.length_append, List.length_cons, ih, hslen]
    ring

/-- C2: a successful UPSERT of `n` rows on a table with `i`
secondary-indexed columns emits no catalog entries and exactly
`n × (1 + i)` data entries; each row contributes one primary entry keyed
by its encoded primary-key value and carrying the row payload, followed by
one empty-valued entry per secondary-indexed column whose key ends with
that row's encoded primary-key value. -/
theorem upsert_emits_row_entries (tr : TableRef) (cols : List String)
    (rows : List RowSpec) (e : Engine) (table : Table) (cs : List (Nat × Nat))
    (ces des : List KV) (e' : Engine)
    (ht : tr.referencedTable (some e) = .ok table)
    (hv : upsertValidate cols table = .ok cs)
    (hc : compileUsing (.upsertInto tr cols rows) e = .ok (ces, des, e')) :
    ces = [] ∧ des.length = rows.length * (1 + table.indexes.length)
    ∧ ∃ groups, des = groups.flatten
        ∧ List.Forall₂ (UpsertRowShape e table cs cols) rows groups := by
  simp only [compileUsing, ht, hv] at hc
  rcases hrows : upsertRows e table cs cols rows [] with eerr | des₁
  · simp only [hrows] at hc; cases hc
  · simp only [hrows] at hc
    cases hc
    obtain ⟨groups, hdes, hall⟩ := upsertRows_spec e table cs cols rows [] _ hrows
    rw [List.nil_append] at hdes
    subst hdes
    exact ⟨rfl, forall₂_shape_flatten_length e table cs cols rows groups hall,
      groups, rfl, hall⟩

/-- The fixture two-row UPSERT `t(id, name) VALUES (1,'a'),(2,'b')`. -/
def exUpsert2 : SQLStmt := .upsertInto exTR ["id", "name"] [exRow1, exRow2]

/-- The data entries the fixture UPSERT compiles to. -/
def exDes : List KV :=
  match compileUsing exUpsert2 exEngine with
  | .ok (_, des, _) => des
  | .error _ => []

/-- Witness for C2: the two-row fixture UPSERT on the table with one
secondary index emits `2 × (1 + 1)` data entries of the stated shape. -/
theorem upsert_emits_row_entries_witness :
    (TableRef.referencedTable exTR (some exEngine) = .ok exTable
     ∧ upsertValidate ["id", "name"] exTable = .ok exCs
     ∧ compileUsing exUpsert2 exEngine = .ok ([], exDes, exEngine))
    ∧ (([] : List KV) = []
       ∧ exDes.length = [exRow1, exRow2].length * (1 + exTable.indexes.length)
       ∧ ∃ groups, exDes = groups.flatten
           ∧ List.Forall₂ (UpsertRowShape exEngine exTable exCs ["id", "name"])
               [exRow1, exRow2] groups) :=
  ⟨⟨rfl, rfl, rfl⟩,
   upsert_emits_row_entries exTR ["id", "name"] [exRow1, exRow2] exEngine exTable
     exCs [] exDes exEngine rfl rfl rfl⟩

/-- C10: `SelectStmt.Resolve` with a non-nil ordering column always fails
with `LimitedOrderBy`, for every engine, snapshot and statement content. -/
theorem selectResolve_rejects_ordering_column (stmt : SelectStmt)
    (e? : Option Engine) (snap? : Option Snapshot) (oc : OrdCol) :
    SelectStmt.Resolve stmt e? snap? (some oc) = .error .limitedOrderBy := by
  cases stmt with
  | mk dis sels ds joins w g hv lim ob a => rfl

end ImmuSql
